import Mathlib

/-!
Shallow embedding of the SDS diagnostic packet codec and request builder
(source files `sds.py` and `sds_types.py`).

Bytes are modelled as `Nat` values in a `List Nat`; a caller-supplied CAN
payload always holds values below 256.  Python exceptions are modelled as
`Except Err` results: `IndexError` (reading or popping past the end of the
byte list) becomes `Err.indexError`, a `ValueError` raised by an enum
constructor such as `Service(x)` becomes the matching `unknown…`
constructor, a `ValueError` from `int(...)` becomes `Err.badInt`, and the
`TypeError` raised when `ControlFlowPacket.parse` calls the `None` returned
by `class_for_ptype` becomes `Err.unrecognizedControlFlowType`.
-/

/-! Enumeration tables from `sds_types.py`. -/

inductive ECU
  | BCM
  | ECM
deriving DecidableEq

def ECU.value : ECU → Nat
  | .BCM => 0x7C0
  | .ECM => 0x7E0

/-- Lookup `ECU(n)`; the `ValueError` on a miss is modelled as `none`. -/
def ECU.ofValue? (n : Nat) : Option ECU :=
  if n = 0x7C0 then some .BCM
  else if n = 0x7E0 then some .ECM
  else none

inductive ECU_Mode
  | Default
  | Diagnostic
  | Device_Control
deriving DecidableEq

def ECU_Mode.value : ECU_Mode → Nat
  | .Default => 0x01
  | .Diagnostic => 0x02
  | .Device_Control => 0x03

inductive SecurityAccessFunction
  | Seed
  | Key
deriving DecidableEq

def SecurityAccessFunction.value : SecurityAccessFunction → Nat
  | .Seed => 0x01
  | .Key => 0x02

inductive DataTransferFunction
  | Download
  | DownloadAndExecute
deriving DecidableEq

def DataTransferFunction.value : DataTransferFunction → Nat
  | .Download => 0x0
  | .DownloadAndExecute => 0x80

inductive FailureReason
  | ServiceNotSupported
  | SubFunctionNotSupported
  | ConditionsNotCorrect
  | RequestOutOfRange
  | InvalidKey
  | ExceedNumberOfAttempts
deriving DecidableEq

def FailureReason.value : FailureReason → Nat
  | .ServiceNotSupported => 0x11
  | .SubFunctionNotSupported => 0x12
  | .ConditionsNotCorrect => 0x13
  | .RequestOutOfRange => 0x14
  | .InvalidKey => 0x15
  | .ExceedNumberOfAttempts => 0x16

/-- Lookup `FailureReason(n)`; `ValueError` on a miss is `none`. -/
def FailureReason.ofValue? (n : Nat) : Option FailureReason :=
  if n = 0x11 then some .ServiceNotSupported
  else if n = 0x12 then some .SubFunctionNotSupported
  else if n = 0x13 then some .ConditionsNotCorrect
  else if n = 0x14 then some .RequestOutOfRange
  else if n = 0x15 then some .InvalidKey
  else if n = 0x16 then some .ExceedNumberOfAttempts
  else none

inductive Service
  | Initiate_Diagnostic_Session
  | Return_To_Normal
  | Security_Access
  | Read_Memory_By_Address
  | Read_DID_By_ID
  | Programming_Mode
  | Request_Download
  | Transfer_Data
deriving DecidableEq

def Service.value : Service → Nat
  | .Initiate_Diagnostic_Session => 0x20
  | .Return_To_Normal => 0x21
  | .Security_Access => 0x22
  | .Read_Memory_By_Address => 0x23
  | .Read_DID_By_ID => 0x24
  | .Programming_Mode => 0x25
  | .Request_Download => 0x26
  | .Transfer_Data => 0x27

/-- Lookup `Service(n)`; `ValueError` on a miss is `none`. -/
def Service.ofValue? (n : Nat) : Option Service :=
  if n = 0x20 then some .Initiate_Diagnostic_Session
  else if n = 0x21 then some .Return_To_Normal
  else if n = 0x22 then some .Security_Access
  else if n = 0x23 then some .Read_Memory_By_Address
  else if n = 0x24 then some .Read_DID_By_ID
  else if n = 0x25 then some .Programming_Mode
  else if n = 0x26 then some .Request_Download
  else if n = 0x27 then some .Transfer_Data
  else none

inductive ResponseType
  | IniitiateDiagnosticSession_Success
  | ReturnToNormal_Success
  | SecurityAccess_Success
  | ReadMemoryByAddress_Success
  | ReadDIDByID_Success
  | ProgrammingMode_Success
  | RequestDownload_Success
  | TransferData_Success
  | Failure
deriving DecidableEq

def ResponseType.value : ResponseType → Nat
  | .IniitiateDiagnosticSession_Success => 0x60
  | .ReturnToNormal_Success => 0x61
  | .SecurityAccess_Success => 0x62
  | .ReadMemoryByAddress_Success => 0x63
  | .ReadDIDByID_Success => 0x64
  | .ProgrammingMode_Success => 0x65
  | .RequestDownload_Success => 0x66
  | .TransferData_Success => 0x67
  | .Failure => 0x7F

/-- Lookup `ResponseType(n)`; `ValueError` on a miss is `none`. -/
def ResponseType.ofValue? (n : Nat) : Option ResponseType :=
  if n = 0x60 then some .IniitiateDiagnosticSession_Success
  else if n = 0x61 then some .ReturnToNormal_Success
  else if n = 0x62 then some .SecurityAccess_Success
  else if n = 0x63 then some .ReadMemoryByAddress_Success
  else if n = 0x64 then some .ReadDIDByID_Success
  else if n = 0x65 then some .ProgrammingMode_Success
  else if n = 0x66 then some .RequestDownload_Success
  else if n = 0x67 then some .TransferData_Success
  else if n = 0x7F then some .Failure
  else none

/-! Decode errors: each constructor names one distinct Python failure mode
of the decode path (see the module comment). -/

inductive Err
  | indexError
  | unknownService
  | unknownResponseCode
  | unknownFailureReason
  | unknownECU
  | badInt
  | unrecognizedControlFlowType
deriving DecidableEq

/-! Decoded packets.  Each constructor records exactly the attributes the
corresponding Python object stores after `__init__` finishes:
`CommandPacket` subclasses keep `packet_length`, `ControlFlowRequestPacket`
keeps `data_length` and the remaining bytes, `ControlFlowFramePacket` keeps
only the remaining bytes (its `data_length` is the constant 7 and its type
byte is popped and discarded), `ControlFlowResponsePacket` keeps nothing. -/

inductive Packet
  | commandRequest (packet_length : Nat) (service : Service) (request_data : List Nat)
  | commandResponse (packet_length : Nat) (response_code : ResponseType) (response_data : List Nat)
  | commandFailure (packet_length : Nat) (failed_service : Service) (reason : FailureReason)
  | flowControlRequest (data_length : Nat) (data : List Nat)
  | flowControlFrame (data : List Nat)
  | flowControlContinue
deriving DecidableEq

/-- Command-path decoding, `CommandPacket.parse` combined with the variant
constructors.  `data[1]` is inspected first; then `CommandPacket.__init__`
pops the length byte `b0` and pops trailing bytes until at most `b0`
remain (`List.take b0`); then the variant pops its fixed fields, with
enum lookups raising on unknown codes. -/
def CommandPacket.parse (data : List Nat) : Except Err Packet :=
  match data with
  | [] => .error .indexError
  | [_] => .error .indexError
  | b0 :: b1 :: rest =>
    let body := (b1 :: rest).take b0
    if b1 = 0x7F then
      match body with
      | _ :: sv :: rs :: _ =>
        match Service.ofValue? sv with
        | none => .error .unknownService
        | some s =>
          match FailureReason.ofValue? rs with
          | none => .error .unknownFailureReason
          | some r => .ok (.commandFailure b0 s r)
      | _ => .error .indexError
    else if b1 < 0x30 then
      match body with
      | sv :: payload =>
        match Service.ofValue? sv with
        | none => .error .unknownService
        | some s => .ok (.commandRequest b0 s payload)
      | [] => .error .indexError
    else
      match body with
      | rc :: payload =>
        match ResponseType.ofValue? rc with
        | none => .error .unknownResponseCode
        | some c => .ok (.commandResponse b0 c payload)
      | [] => .error .indexError

/-- Control-flow path: `ControlFlowPacket.class_for_ptype` dispatch plus
the chosen constructor.  When no class matches, the Python code calls
`None` and crashes with a `TypeError`; that unique failure mode is the
`unrecognizedControlFlowType` error. -/
def ControlFlowPacket.parse (data : List Nat) : Except Err Packet :=
  match data with
  | [] => .error .indexError
  | b0 :: rest =>
    if b0 = 0x10 then
      match rest with
      | [] => .error .indexError
      | dl :: payload => .ok (.flowControlRequest dl payload)
    else if b0 &&& 0xF0 = 0x20 then
      .ok (.flowControlFrame rest)
    else if b0 = 0x30 then
      .ok .flowControlContinue
    else
      .error .unrecognizedControlFlowType

/-- Top-level dispatch `MsgPacket.parse`: the first byte selects the
command path (at most 0x0F) or the control-flow path. -/
def MsgPacket.parse (data : List Nat) : Except Err Packet :=
  match data with
  | [] => .error .indexError
  | b0 :: _ =>
    if b0 ≤ 0xF then CommandPacket.parse data
    else ControlFlowPacket.parse data

/-! Text helpers used by `Msg` and `Request` (hex and decimal conversion,
whitespace splitting), modelling the Python builtins the source calls. -/

/-- Value of one hexadecimal digit character, else `none`. -/
def hexDigitVal? (c : Char) : Option Nat :=
  if '0' ≤ c ∧ c ≤ '9' then some (c.toNat - 48)
  else if 'a' ≤ c ∧ c ≤ 'f' then some (c.toNat - 87)
  else if 'A' ≤ c ∧ c ≤ 'F' then some (c.toNat - 55)
  else none

/-- Model of `int(s, 16)` on a plain string of hex digits (the only shape
the capture-line format feeds it); `ValueError` on an empty string or a
non-hex character is `none`. -/
def hexToNat? (s : String) : Option Nat :=
  match s.data with
  | [] => none
  | cs => cs.foldlM (fun acc c => (hexDigitVal? c).map (fun d => acc * 16 + d)) 0

/-- Model of `int(s)` on a plain decimal-digit string; `ValueError` is
`none`. -/
def decToNat? (s : String) : Option Nat :=
  match s.data with
  | [] => none
  | cs => cs.foldlM
      (fun acc c => if c.isDigit then some (acc * 10 + (c.toNat - 48)) else none) 0

def isBracket (c : Char) : Bool := c = '[' || c = ']'

/-- Model of `s.strip("[]")`: drop leading and trailing bracket
characters. -/
def stripBrackets (s : String) : String :=
  String.mk (((s.data.dropWhile isBracket).reverse.dropWhile isBracket).reverse)

/-- Model of `line.split(" ")`: split on every single space, keeping empty
fields between consecutive separators, as Python does with an explicit
separator.  Never returns the empty list. -/
def splitOnSpace : List Char → List (List Char)
  | [] => [[]]
  | c :: rest =>
    match splitOnSpace rest with
    | [] => [[]]
    | cur :: done =>
      if c = ' ' then [] :: cur :: done else (c :: cur) :: done

/-- Lowercase hex digit character for a value below 16. -/
def hexChar (n : Nat) : Char :=
  if n < 10 then Char.ofNat (48 + n) else Char.ofNat (87 + n)

/-- Fuel-driven core of the `"%x"` rendering of a natural number. -/
def natHexCore : Nat → Nat → List Char → List Char
  | 0, _, acc => acc
  | fuel + 1, n, acc =>
    if n < 16 then hexChar (n % 16) :: acc
    else natHexCore fuel (n / 16) (hexChar (n % 16) :: acc)

/-- Model of the `f"{n:x}"` format: lowercase hex, no padding. -/
def natHex (n : Nat) : String := String.mk (natHexCore (n + 1) n [])

/-- One byte as two lowercase hex digits, as in `bytes.hex()`. -/
def byteHex (b : Nat) : String := String.mk [hexChar (b / 16 % 16), hexChar (b % 16)]

/-- Model of `bytes.hex()`: contiguous lowercase hex, no separators. -/
def bytesHex (bs : List Nat) : String := (bs.map byteHex).foldl (· ++ ·) ""

/-- Model of `n.to_bytes(len, "big")` digits, most significant first. -/
def toBytesBEAux : Nat → Nat → List Nat
  | 0, _ => []
  | k + 1, n => (n / 256 ^ k) % 256 :: toBytesBEAux k n

/-- Model of `n.to_bytes(len, "big")`: exactly `len` big-endian bytes;
`OverflowError` when `n` does not fit is `none`. -/
def toBytesBE? (n len : Nat) : Option (List Nat) :=
  if n < 256 ^ len then some (toBytesBEAux len n) else none

/-! The `Msg` envelope of `sds.py`. -/

inductive MsgDirection
  | Request
  | Response
deriving DecidableEq

structure Msg where
  can_interface : String
  ecu : ECU
  direction : MsgDirection
  data_size : Nat
  packet : Packet
deriving DecidableEq

/-- Integer arm of `Msg.parse_ecu_id`: the ECU base is the id with the low
nibble masked off, looked up in the `ECU` table (`ValueError` on a miss is
`none`); the direction is `Request` exactly when the low nibble is zero.
A `str`/`bytes` argument is first converted with `int(x, 16)` (inlined at
the call site below); an already-typed `ECU` argument skips the mask and
gets direction `Request`. -/
def Msg.parse_ecu_id (n : Nat) : Option (ECU × MsgDirection) :=
  match ECU.ofValue? (n &&& 0xFF0) with
  | none => none
  | some ecu => some (ecu, if n &&& 0xF = 0 then .Request else .Response)

/-- Model of `Msg.parse_size` on the textual field: strip brackets, then
`int(...)`. -/
def Msg.parse_size (s : String) : Option Nat := decToNat? (stripBrackets s)

/-- Model of `Msg.from_candump` followed by `Msg.__init__`.  A line with
fewer than 4 space-separated fields returns `None`, modelled `.ok none`;
otherwise every exception of the construction propagates, in the Python
evaluation order: the payload hex bytes are converted first, then the
arbitration id is parsed and looked up, then the size field, then the
packet is decoded. -/
def Msg.from_candump (line : String) : Except Err (Option Msg) :=
  match (splitOnSpace line.data).map String.mk with
  | can_interface :: ecu_id :: data_size :: b :: bs =>
    match (b :: bs).mapM hexToNat? with
    | none => .error .badInt
    | some msg_bytes =>
      match hexToNat? ecu_id with
      | none => .error .badInt
      | some ecu_num =>
        match Msg.parse_ecu_id ecu_num with
        | none => .error .unknownECU
        | some (ecu, dir) =>
          match Msg.parse_size data_size with
          | none => .error .badInt
          | some sz =>
            match MsgPacket.parse msg_bytes with
            | .error e => .error e
            | .ok p => .ok (some ⟨can_interface, ecu, dir, sz, p⟩)
  | _ => .ok none

/-- The `data` attribute read by `Msg.__bytes__` (`self.packet.data`).
`CommandResponsePacket` exposes a `data` property returning its payload;
the control-flow classes store `self.data` directly.  Neither
`CommandRequestPacket` (which stores `request_data`) nor
`CommandFailurePacket` (which stores only `failure`) defines `data`, so
reading it raises `AttributeError`, modelled `none`. -/
def Packet.dataAttr? : Packet → Option (List Nat)
  | .commandRequest _ _ _ => none
  | .commandFailure _ _ _ => none
  | .commandResponse _ _ payload => some payload
  | .flowControlRequest _ payload => some payload
  | .flowControlFrame payload => some payload
  | .flowControlContinue => some []

/-! The `Request` builder of `sds.py`. -/

/-- The three runtime types `Request.__init__` accepts for its `ecu`
argument. -/
inductive ECUArg
  | ofECU (e : ECU)
  | ofNat (n : Nat)
  | ofStr (s : String)

/-- The coercion chain at the top of `Request.__init__`: a string is read
as hex, an integer is looked up in the `ECU` table (`ValueError` on a miss
is `none`), an `ECU` value passes through. -/
def parseECUArg : ECUArg → Option ECU
  | .ofECU e => some e
  | .ofNat n => ECU.ofValue? n
  | .ofStr s => (hexToNat? s).bind ECU.ofValue?

structure Request where
  ecu : ECU
  data : List Nat
deriving DecidableEq

/-- Model of `Request.__init__`: resolve the ECU argument, then build the
frame bytes `[packet_len, service_val, *data]` (or without the service
byte when `service` is `None`).  When `packet_len` is not given it
defaults to `len([service_val, *data])`, which is `1 + len(data)` whether
or not `service_val` is `None` (the `None` element still counts). -/
def Request.init (ecu : ECUArg) (service : Option Service)
    (packet_len : Option Nat) (data : List Nat) : Option Request :=
  match parseECUArg ecu with
  | none => none
  | some e =>
    let service_val := service.map Service.value
    let pl := match packet_len with
      | some n => n
      | none => 1 + data.length
    match service_val with
    | none => some ⟨e, pl :: data⟩
    | some sv => some ⟨e, pl :: sv :: data⟩

/-- Model of `Request.__str__`: `f"{ecu.value:x}#{data.hex()}"`. -/
def Request.render (r : Request) : String :=
  natHex r.ecu.value ++ "#" ++ bytesHex r.data

/-- Model of `Request.set_mode`: an `Initiate_Diagnostic_Session` request
whose payload is the single mode byte, default discriminator. -/
def Request.set_mode (mode : ECU_Mode) (ecu : ECUArg) : Option Request :=
  Request.init ecu (some .Initiate_Diagnostic_Session) none [mode.value]

/-- Model of `Request.read_address`: a `Read_Memory_By_Address` request
with explicit `packet_len=0x8` and payload `address.to_bytes(4, "big") ++
length.to_bytes(2, "big")`. -/
def Request.read_address (address length : Nat) (ecu : ECUArg) : Option Request :=
  match toBytesBE? address 4, toBytesBE? length 2 with
  | some ab, some lb =>
    Request.init ecu (some .Read_Memory_By_Address) (some 0x8) (ab ++ lb)
  | _, _ => none

/-- Re-encoding of a decoded packet through the frame layout of
`Request.__init__` (`bytes([packet_len, service_val, *data])`), using the
fields the decoded object retains: the stored length byte becomes the
discriminator and the stored codes become the service byte and payload.
A `flowControlFrame` does not retain its type byte (any byte with high
nibble 2), so no re-encoding is determined for it. -/
def reencode : Packet → Option (List Nat)
  | .commandRequest pl s payload => some (pl :: s.value :: payload)
  | .commandResponse pl c payload => some (pl :: c.value :: payload)
  | .commandFailure pl s r => some (pl :: 0x7F :: s.value :: [r.value])
  | .flowControlRequest dl payload => some (0x10 :: dl :: payload)
  | .flowControlContinue => some [0x30]
  | .flowControlFrame _ => none

/-! Helper lemmas: an enum member found by value lookup carries that
value. -/

theorem serviceValue_ofValue {n : Nat} {s : Service}
    (h : Service.ofValue? n = some s) : s.value = n := by
  unfold Service.ofValue? at h
  split_ifs at h <;> simp_all <;> subst h <;> rfl

theorem responseTypeValue_ofValue {n : Nat} {c : ResponseType}
    (h : ResponseType.ofValue? n = some c) : c.value = n := by
  unfold ResponseType.ofValue? at h
  split_ifs at h <;> simp_all <;> subst h <;> rfl

theorem failureReasonValue_ofValue {n : Nat} {r : FailureReason}
    (h : FailureReason.ofValue? n = some r) : r.value = n := by
  unfold FailureReason.ofValue? at h
  split_ifs at h <;> simp_all <;> subst h <;> rfl

theorem ecuValue_ofValue {n : Nat} {e : ECU} (h : ECU.ofValue? n = some e) :
    e.value = n := by
  unfold ECU.ofValue? at h
  split_ifs at h <;> simp_all <;> subst h <;> rfl

theorem toBytesBEAux_length (k n : Nat) : (toBytesBEAux k n).length = k := by
  induction k generalizing n with
  | zero => rfl
  | succ k ih => simp [toBytesBEAux, ih]

/-- C1 (counterexample): the round trip `encode(decode(x)) = x` fails on
well-formed Flow-Control frames.  The frame `21 AA BB CC DD EE FF 00`
decodes without error, yet its decode equals that of the distinct frame
`22 AA BB CC DD EE FF 00` (the frame-index byte is popped and discarded),
so no re-encoding function whatsoever can reproduce both inputs; moreover
the byte view `Msg.__bytes__` reads the packet's `data` attribute, which
holds only the 7 payload bytes, not the original 8-byte frame. -/
theorem c1_round_trip_counterexample :
    MsgPacket.parse [0x21, 0xAA, 0xBB, 0xCC, 0xDD, 0xEE, 0xFF, 0x00]
      = MsgPacket.parse [0x22, 0xAA, 0xBB, 0xCC, 0xDD, 0xEE, 0xFF, 0x00] ∧
    ([0x21, 0xAA, 0xBB, 0xCC, 0xDD, 0xEE, 0xFF, 0x00] : List Nat)
      ≠ [0x22, 0xAA, 0xBB, 0xCC, 0xDD, 0xEE, 0xFF, 0x00] ∧
    MsgPacket.parse [0x21, 0xAA, 0xBB, 0xCC, 0xDD, 0xEE, 0xFF, 0x00]
      = .ok (.flowControlFrame [0xAA, 0xBB, 0xCC, 0xDD, 0xEE, 0xFF, 0x00]) ∧
    Packet.dataAttr? (.flowControlFrame [0xAA, 0xBB, 0xCC, 0xDD, 0xEE, 0xFF, 0x00])
      = some [0xAA, 0xBB, 0xCC, 0xDD, 0xEE, 0xFF, 0x00] :=
  ⟨rfl, by decide, rfl, rfl⟩

/-- C1 (amended): re-encoding through the `Request.__init__` frame layout
from the fields the decoded packet retains reproduces `x` exactly on the
command path, provided the declared length byte covers exactly the
remaining bytes (and a failure frame is exactly 4 bytes, since its excess
bytes are not retained), and on `FlowControlRequest` frames and the
1-byte `FlowControlContinue` frame; the `FlowControlFrame` family is
excluded because its frame-index byte is discarded during decoding. -/
theorem c1_round_trip_amended :
    (∀ b0 b1 rest p, b0 ≤ 0xF → (b1 :: rest).length = b0 → (b1 = 0x7F → b0 = 3) →
       MsgPacket.parse (b0 :: b1 :: rest) = .ok p →
       reencode p = some (b0 :: b1 :: rest)) ∧
    (∀ dl rest p, MsgPacket.parse (0x10 :: dl :: rest) = .ok p →
       reencode p = some (0x10 :: dl :: rest)) ∧
    (∀ p, MsgPacket.parse [0x30] = .ok p → reencode p = some [0x30]) := by
  refine ⟨?_, ?_, ?_⟩
  · intro b0 b1 rest p hb0 hlen h7f hp
    simp only [MsgPacket.parse, CommandPacket.parse] at hp
    rw [if_pos hb0, List.take_of_length_le (le_of_eq hlen)] at hp
    by_cases hb1 : b1 = 0x7F
    · have hb03 : b0 = 3 := h7f hb1
      subst hb1
      subst hb03
      have hrest : rest.length = 2 := by simp at hlen; omega
      obtain ⟨sv, rs, rfl⟩ := List.length_eq_two.mp hrest
      rw [if_pos rfl] at hp
      cases hs : Service.ofValue? sv with
      | none => simp [hs] at hp
      | some s =>
        cases hr : FailureReason.ofValue? rs with
        | none => simp [hs, hr] at hp
        | some r =>
          simp [hs, hr] at hp
          rw [← hp]
          simp [reencode, serviceValue_ofValue hs, failureReasonValue_ofValue hr]
    · rw [if_neg hb1] at hp
      by_cases hlt : b1 < 0x30
      · rw [if_pos hlt] at hp
        cases hs : Service.ofValue? b1 with
        | none => simp [hs] at hp
        | some s =>
          simp [hs] at hp
          rw [← hp]
          simp [reencode, serviceValue_ofValue hs]
      · rw [if_neg hlt] at hp
        cases hc : ResponseType.ofValue? b1 with
        | none => simp [hc] at hp
        | some c =>
          simp [hc] at hp
          rw [← hp]
          simp [reencode, responseTypeValue_ofValue hc]
  · intro dl rest p hp
    simp only [MsgPacket.parse, ControlFlowPacket.parse] at hp
    simp at hp
    rw [← hp]
    rfl
  · intro p hp
    simp only [MsgPacket.parse, ControlFlowPacket.parse] at hp
    simp at hp
    rw [if_neg (by decide)] at hp
    simp at hp
    rw [← hp]
    rfl

/-- C1 (witness): the amended round trip at the concrete command frame
`02 20 02`. -/
theorem c1_round_trip_amended_witness :
    reencode (.commandRequest 0x02 .Initiate_Diagnostic_Session [0x02])
      = some [0x02, 0x20, 0x02] :=
  c1_round_trip_amended.1 0x02 0x20 [0x02] _ (by decide) (by decide) (by omega) rfl

/-- C2 (counterexample): a command-path input with fewer bytes than the
declared length does NOT fail with a truncation error: `02 20` declares 2
trailing bytes but carries only 1, yet decoding succeeds and returns a
packet built from the single available byte. -/
theorem c2_truncation_counterexample :
    MsgPacket.parse [0x02, 0x20]
      = .ok (.commandRequest 0x02 .Initiate_Diagnostic_Session [])
      ∧ ([0x20] : List Nat).length < 0x02 := ⟨rfl, by decide⟩

/-- C2 (amended): the decoder performs no truncation check.  For every
command-path input in which fewer than `b0` bytes remain after the length
byte, the byte-dropping loop removes nothing and decoding proceeds on all
remaining bytes: each of the three variants succeeds with a packet built
from the fewer-than-declared bytes when its mandatory bytes are present
and their codes are in the tables; an absent code fails with the matching
unknown-code error, and missing mandatory bytes of the failure variant
fail with the untyped index error; no truncation failure exists. -/
theorem c2_short_command_keeps_available_bytes :
    (∀ b0 b1 rest s, b0 ≤ 0xF → rest.length + 1 < b0 → b1 < 0x30 →
       Service.ofValue? b1 = some s →
       MsgPacket.parse (b0 :: b1 :: rest) = .ok (.commandRequest b0 s rest)) ∧
    (∀ b0 b1 rest, b0 ≤ 0xF → rest.length + 1 < b0 → b1 < 0x30 →
       Service.ofValue? b1 = none →
       MsgPacket.parse (b0 :: b1 :: rest) = .error .unknownService) ∧
    (∀ b0 b1 rest c, b0 ≤ 0xF → rest.length + 1 < b0 → b1 ≠ 0x7F → ¬ b1 < 0x30 →
       ResponseType.ofValue? b1 = some c →
       MsgPacket.parse (b0 :: b1 :: rest) = .ok (.commandResponse b0 c rest)) ∧
    (∀ b0 b1 rest, b0 ≤ 0xF → rest.length + 1 < b0 → b1 ≠ 0x7F → ¬ b1 < 0x30 →
       ResponseType.ofValue? b1 = none →
       MsgPacket.parse (b0 :: b1 :: rest) = .error .unknownResponseCode) ∧
    (∀ b0 sv rs more s r, b0 ≤ 0xF → more.length + 3 < b0 →
       Service.ofValue? sv = some s → FailureReason.ofValue? rs = some r →
       MsgPacket.parse (b0 :: 0x7F :: sv :: rs :: more)
         = .ok (.commandFailure b0 s r)) ∧
    (∀ b0 sv rs more, b0 ≤ 0xF → more.length + 3 < b0 →
       Service.ofValue? sv = none →
       MsgPacket.parse (b0 :: 0x7F :: sv :: rs :: more) = .error .unknownService) ∧
    (∀ b0 sv rs more s, b0 ≤ 0xF → more.length + 3 < b0 →
       Service.ofValue? sv = some s → FailureReason.ofValue? rs = none →
       MsgPacket.parse (b0 :: 0x7F :: sv :: rs :: more)
         = .error .unknownFailureReason) ∧
    (∀ b0 b1 rest, b0 ≤ 0xF → rest.length + 1 < b0 → b1 = 0x7F → rest.length < 2 →
       MsgPacket.parse (b0 :: b1 :: rest) = .error .indexError) := by
  refine ⟨?_, ?_, ?_, ?_, ?_, ?_, ?_, ?_⟩
  · intro b0 b1 rest s hb0 hshort hreq hs
    have hlen : (b1 :: rest).length ≤ b0 := by simp; omega
    simp only [MsgPacket.parse, CommandPacket.parse]
    rw [if_pos hb0, List.take_of_length_le hlen, if_neg (by omega : ¬ b1 = 0x7F),
      if_pos hreq]
    simp [hs]
  · intro b0 b1 rest hb0 hshort hreq hs
    have hlen : (b1 :: rest).length ≤ b0 := by simp; omega
    simp only [MsgPacket.parse, CommandPacket.parse]
    rw [if_pos hb0, List.take_of_length_le hlen, if_neg (by omega : ¬ b1 = 0x7F),
      if_pos hreq]
    simp [hs]
  · intro b0 b1 rest c hb0 hshort h7f hge hc
    have hlen : (b1 :: rest).length ≤ b0 := by simp; omega
    simp only [MsgPacket.parse, CommandPacket.parse]
    rw [if_pos hb0, List.take_of_length_le hlen, if_neg h7f, if_neg hge]
    simp [hc]
  · intro b0 b1 rest hb0 hshort h7f hge hc
    have hlen : (b1 :: rest).length ≤ b0 := by simp; omega
    simp only [MsgPacket.parse, CommandPacket.parse]
    rw [if_pos hb0, List.take_of_length_le hlen, if_neg h7f, if_neg hge]
    simp [hc]
  · intro b0 sv rs more s r hb0 hshort hs hr
    have hlen : (0x7F :: sv :: rs :: more).length ≤ b0 := by simp; omega
    simp only [MsgPacket.parse, CommandPacket.parse]
    rw [if_pos hb0, List.take_of_length_le hlen]
    simp [hs, hr]
  · intro b0 sv rs more hb0 hshort hs
    have hlen : (0x7F :: sv :: rs :: more).length ≤ b0 := by simp; omega
    simp only [MsgPacket.parse, CommandPacket.parse]
    rw [if_pos hb0, List.take_of_length_le hlen]
    simp [hs]
  · intro b0 sv rs more s hb0 hshort hs hr
    have hlen : (0x7F :: sv :: rs :: more).length ≤ b0 := by simp; omega
    simp only [MsgPacket.parse, CommandPacket.parse]
    rw [if_pos hb0, List.take_of_length_le hlen]
    simp [hs, hr]
  · intro b0 b1 rest hb0 hshort hb1 hlen2
    subst hb1
    have hlen : ((0x7F : Nat) :: rest).length ≤ b0 := by simp; omega
    simp only [MsgPacket.parse, CommandPacket.parse]
    rw [if_pos hb0, List.take_of_length_le hlen]
    rcases rest with _ | ⟨x, _ | ⟨y, tl⟩⟩
    · rfl
    · rfl
    · simp only [List.length_cons] at hlen2
      omega

/-- C2 (witness): the amended statement at three concrete short frames:
the request frame `05 21 01` (5 declared, 2 present), the failure frame
`06 7F 22 15` (6 declared, 3 present), and the too-short failure frame
`07 7F 11` whose missing reason byte gives the index error. -/
theorem c2_short_command_witness :
    MsgPacket.parse [0x05, 0x21, 0x01]
      = .ok (.commandRequest 0x05 .Return_To_Normal [0x01]) ∧
    MsgPacket.parse [0x06, 0x7F, 0x22, 0x15]
      = .ok (.commandFailure 0x06 .Security_Access .InvalidKey) ∧
    MsgPacket.parse [0x07, 0x7F, 0x11] = .error .indexError :=
  ⟨c2_short_command_keeps_available_bytes.1 0x05 0x21 [0x01] _ (by decide)
      (by decide) (by decide) rfl,
   c2_short_command_keeps_available_bytes.2.2.2.2.1 0x06 0x22 0x15 [] _ _
      (by decide) (by decide) rfl rfl,
   c2_short_command_keeps_available_bytes.2.2.2.2.2.2.2 0x07 0x7F [0x11]
      (by decide) (by decide) (by decide) (by decide)⟩

/-- C3: on the command path the second byte selects the variant.  With the
declared length satisfied, `b1 = 0x7F` yields a `CommandFailure` from the
two following table-looked-up bytes; `b1 < 0x30` yields a `CommandRequest`
with the service looked up in the `Service` table and the remaining bytes
within the declared length as payload, failing `unknownService` when the
code is absent; any other `b1` yields a `CommandResponse`.  Concretely,
`02 20 02` decodes to `CommandRequest{service = Initiate_Diagnostic_Session,
payload = [0x02]}` and `03 7F 22 15` decodes to
`CommandFailure{failed_service = Security_Access, reason = InvalidKey}`. -/
theorem c3_command_variant_selection :
    (∀ b0 sv rs more s r, b0 ≤ 0xF → 3 ≤ b0 →
       Service.ofValue? sv = some s → FailureReason.ofValue? rs = some r →
       MsgPacket.parse (b0 :: 0x7F :: sv :: rs :: more) = .ok (.commandFailure b0 s r)) ∧
    (∀ b0 b1 rest s, b0 ≤ 0xF → 1 ≤ b0 → b1 < 0x30 → Service.ofValue? b1 = some s →
       MsgPacket.parse (b0 :: b1 :: rest)
         = .ok (.commandRequest b0 s (rest.take (b0 - 1)))) ∧
    (∀ b0 b1 rest, b0 ≤ 0xF → 1 ≤ b0 → b1 < 0x30 → Service.ofValue? b1 = none →
       MsgPacket.parse (b0 :: b1 :: rest) = .error .unknownService) ∧
    (∀ b0 b1 rest c, b0 ≤ 0xF → 1 ≤ b0 → b1 ≠ 0x7F → ¬ b1 < 0x30 →
       ResponseType.ofValue? b1 = some c →
       MsgPacket.parse (b0 :: b1 :: rest)
         = .ok (.commandResponse b0 c (rest.take (b0 - 1)))) ∧
    MsgPacket.parse [0x02, 0x20, 0x02]
      = .ok (.commandRequest 0x02 .Initiate_Diagnostic_Session [0x02]) ∧
    MsgPacket.parse [0x03, 0x7F, 0x22, 0x15]
      = .ok (.commandFailure 0x03 .Security_Access .InvalidKey) := by
  refine ⟨?_, ?_, ?_, ?_, rfl, rfl⟩
  · intro b0 sv rs more s r hb0 h3 hs hr
    obtain ⟨k, rfl⟩ : ∃ k, b0 = k + 3 := ⟨b0 - 3, by omega⟩
    simp only [MsgPacket.parse, CommandPacket.parse, List.take_succ_cons]
    rw [if_pos hb0]
    simp [hs, hr]
  · intro b0 b1 rest s hb0 h1 hlt hs
    obtain ⟨k, rfl⟩ : ∃ k, b0 = k + 1 := ⟨b0 - 1, by omega⟩
    simp only [MsgPacket.parse, CommandPacket.parse, List.take_succ_cons]
    rw [if_pos hb0, if_neg (by omega : ¬ b1 = 0x7F), if_pos hlt]
    simp [hs]
  · intro b0 b1 rest hb0 h1 hlt hs
    obtain ⟨k, rfl⟩ : ∃ k, b0 = k + 1 := ⟨b0 - 1, by omega⟩
    simp only [MsgPacket.parse, CommandPacket.parse, List.take_succ_cons]
    rw [if_pos hb0, if_neg (by omega : ¬ b1 = 0x7F), if_pos hlt]
    simp [hs]
  · intro b0 b1 rest c hb0 h1 h7f hge hc
    obtain ⟨k, rfl⟩ : ∃ k, b0 = k + 1 := ⟨b0 - 1, by omega⟩
    simp only [MsgPacket.parse, CommandPacket.parse, List.take_succ_cons]
    rw [if_pos hb0, if_neg h7f, if_neg hge]
    simp [hc]

/-- C3 (witness): the failure branch at the concrete frame
`04 7F 23 11 00`. -/
theorem c3_command_variant_selection_witness :
    MsgPacket.parse [0x04, 0x7F, 0x23, 0x11, 0x00]
      = .ok (.commandFailure 0x04 .Read_Memory_By_Address .ServiceNotSupported) :=
  c3_command_variant_selection.1 0x04 0x23 0x11 [0x00] _ _ (by decide) (by decide)
    rfl rfl

/-- C4: control-flow decoding.  First byte `0x10` yields a
`FlowControlRequest` whose declared length is the second byte and whose
initial payload is every remaining byte; a first byte with high nibble 2
yields a `FlowControlFrame` carrying all following bytes (7 on a full CAN
frame); first byte `0x30` yields `FlowControlContinue`, and the three
concrete frames of the specification decode accordingly. -/
theorem c4_control_flow_decoding :
    (∀ dl rest, MsgPacket.parse (0x10 :: dl :: rest)
       = .ok (.flowControlRequest dl rest)) ∧
    (∀ b0 rest, b0 &&& 0xF0 = 0x20 →
       MsgPacket.parse (b0 :: rest) = .ok (.flowControlFrame rest)) ∧
    (∀ rest, MsgPacket.parse (0x30 :: rest) = .ok .flowControlContinue) ∧
    MsgPacket.parse [0x10, 0x08, 0x01, 0x02, 0x03, 0x04, 0x05]
      = .ok (.flowControlRequest 0x08 [0x01, 0x02, 0x03, 0x04, 0x05]) ∧
    MsgPacket.parse [0x21, 0xAA, 0xBB, 0xCC, 0xDD, 0xEE, 0xFF, 0x00]
      = .ok (.flowControlFrame [0xAA, 0xBB, 0xCC, 0xDD, 0xEE, 0xFF, 0x00]) ∧
    MsgPacket.parse [0x30] = .ok .flowControlContinue := by
  refine ⟨fun dl rest => rfl, fun b0 rest h => ?_, fun rest => rfl, rfl, rfl, rfl⟩
  have h32 : 0x20 ≤ b0 := h ▸ Nat.and_le_left
  simp only [MsgPacket.parse, ControlFlowPacket.parse]
  rw [if_neg (by omega : ¬ b0 ≤ 0xF), if_neg (by omega : ¬ b0 = 0x10), if_pos h]

/-- C4 (witness): the frame-family branch at the concrete input `21 AA`. -/
theorem c4_control_flow_decoding_witness :
    MsgPacket.parse [0x21, 0xAA] = .ok (.flowControlFrame [0xAA]) :=
  c4_control_flow_decoding.2.1 0x21 [0xAA] (by decide)

/-- C5: every control-flow first byte that is not `0x10`, not of high
nibble 2 and not `0x30` makes decoding fail with the error modelling the
unrecognized-control-flow-type crash (`class_for_ptype` returns `None` and
calling it raises), never a successful packet. -/
theorem c5_unrecognized_control_flow (b0 : Nat) (rest : List Nat)
    (h1 : 0xF < b0) (h2 : b0 ≠ 0x10) (h3 : b0 &&& 0xF0 ≠ 0x20) (h4 : b0 ≠ 0x30) :
    MsgPacket.parse (b0 :: rest) = .error .unrecognizedControlFlowType := by
  unfold MsgPacket.parse ControlFlowPacket.parse
  simp [Nat.not_le.2 h1, h2, h3, h4]

/-- C5 (witness): the unrecognized type `0x40`. -/
theorem c5_unrecognized_control_flow_witness :
    MsgPacket.parse [0x40] = .error .unrecognizedControlFlowType :=
  c5_unrecognized_control_flow 0x40 [] (by decide) (by decide) (by decide) (by decide)

/-- C6: the enter-diagnostic-mode request for the engine module is built
with service `0x20` and mode byte `0x02`, producing the frame bytes
`02 20 02` (discriminator `0x02`) rendered as `"7e0#022002"`; and in
general, when no discriminator override is given, the first frame byte is
`1 + payload_length`, the extra one accounting for the service byte. -/
theorem c6_set_mode_default_discriminator :
    Request.set_mode ECU_Mode.Diagnostic (.ofECU ECU.ECM)
      = some ⟨ECU.ECM, [0x02, 0x20, 0x02]⟩ ∧
    (Request.set_mode ECU_Mode.Diagnostic (.ofECU ECU.ECM)).map Request.render
      = some "7e0#022002" ∧
    (∀ (e : ECU) (sv : Option Service) (d : List Nat),
       ∃ r, Request.init (.ofECU e) sv none d = some r ∧
         r.data.head? = some (1 + d.length)) := by
  refine ⟨rfl, rfl, ?_⟩
  intro e sv d
  cases sv with
  | none => exact ⟨_, rfl, rfl⟩
  | some s => exact ⟨_, rfl, rfl⟩

/-- C7: for every in-range address and length, the read-memory-by-address
builder emits discriminator byte exactly `0x08`, while its payload after
the service byte is 6 bytes long, so the default rule would have produced
`1 + 6 = 0x07 < 0x08`: the oversized-discriminator quirk is reproduced. -/
theorem c7_read_address_oversized_discriminator (address length : Nat)
    (ha : address < 2 ^ 32) (hl : length < 2 ^ 16) :
    (Request.read_address address length (.ofECU ECU.ECM)).map
        (fun r => r.data.head?) = some (some 0x08) ∧
    (Request.read_address address length (.ofECU ECU.ECM)).map
        (fun r => (r.data.drop 2).length) = some 6 ∧
    1 + 6 = 0x07 ∧ 0x07 < 0x08 := by
  norm_num at ha hl
  have hra : Request.read_address address length (.ofECU ECU.ECM)
      = some ⟨ECU.ECM, 0x8 :: 0x23 :: (toBytesBEAux 4 address ++ toBytesBEAux 2 length)⟩ := by
    simp [Request.read_address, toBytesBE?, ha, hl, Request.init, parseECUArg]
    rfl
  refine ⟨?_, ?_, rfl, by decide⟩
  · rw [hra]
    rfl
  · rw [hra]
    simp [toBytesBEAux_length]

/-- C7 (witness): the oversized discriminator at address `0x12345678`,
length `0x100`. -/
theorem c7_read_address_witness :
    (Request.read_address 0x12345678 0x0100 (.ofECU ECU.ECM)).map
        (fun r => r.data.head?) = some (some 0x08) ∧
    (Request.read_address 0x12345678 0x0100 (.ofECU ECU.ECM)).map
        (fun r => (r.data.drop 2).length) = some 6 ∧
    1 + 6 = 0x07 ∧ 0x07 < 0x08 :=
  c7_read_address_oversized_discriminator 0x12345678 0x0100 (by norm_num) (by norm_num)

/-- C8: whenever an integer arbitration id resolves (its masked base is a
known ECU), the derived direction is `Request` exactly when the low nibble
is zero; and for every known base and each of the 16 possible low-nibble
values, the id decodes to that ECU with direction `Request` for nibble 0
and `Response` otherwise. -/
theorem c8_direction_request_iff_nibble_zero :
    (∀ n e d, Msg.parse_ecu_id n = some (e, d) →
       (d = MsgDirection.Request ↔ n &&& 0xF = 0)) ∧
    (∀ base nib e, nib < 16 → ECU.ofValue? base = some e →
       Msg.parse_ecu_id (base + nib)
         = some (e, if nib = 0 then MsgDirection.Request else MsgDirection.Response)) := by
  constructor
  · intro n e d h
    unfold Msg.parse_ecu_id at h
    cases hecu : ECU.ofValue? (n &&& 0xFF0) with
    | none => simp [hecu] at h
    | some ecu =>
      rw [hecu] at h
      by_cases hz : n &&& 0xF = 0
      · simp [hz] at h
        simp [← h.2, hz]
      · simp [hz] at h
        simp [← h.2, hz]
  · intro base nib e hnib hb
    have hbase : e.value = base := ecuValue_ofValue hb
    subst hbase
    cases e <;> interval_cases nib <;> decide

/-- C8 (witness): arbitration id `0x7E5` (base `0x7E0`, nibble 5) decodes
to the engine module with direction `Response`. -/
theorem c8_direction_witness :
    Msg.parse_ecu_id (0x7E0 + 5)
      = some (ECU.ECM, if 5 = 0 then MsgDirection.Request else MsgDirection.Response) :=
  c8_direction_request_iff_nibble_zero.2 0x7E0 5 ECU.ECM (by decide) rfl

/-- C9: a capture-log line that splits into fewer than 4 space-separated
fields parses to "no message" (`.ok none`) rather than any error; in
particular the 3-field line `"can0 7E0 [2]"` does. -/
theorem c9_malformed_line_no_message :
    (∀ line : String, (splitOnSpace line.data).length < 4 →
       Msg.from_candump line = .ok none) ∧
    Msg.from_candump "can0 7E0 [2]" = .ok none := by
  constructor
  · intro line h
    unfold Msg.from_candump
    generalize hls : splitOnSpace line.data = ls at h ⊢
    rcases ls with _ | ⟨a, _ | ⟨b, _ | ⟨c, _ | ⟨d, tl⟩⟩⟩⟩
    · rfl
    · rfl
    · rfl
    · rfl
    · simp only [List.length_cons] at h
      omega
  · rfl

/-- C9 (witness): the 1-field line `"hello"` parses to no message. -/
theorem c9_malformed_line_witness : Msg.from_candump "hello" = .ok none :=
  c9_malformed_line_no_message.1 "hello" (by decide)

/-- C10: constructing a `Request` with the ECU given as the enum member,
as the corresponding integer, or as the corresponding lowercase hex string
yields identical results, for every service, discriminator override and
payload: the same resolved request (hence the same frame bytes) and the
same rendered send-line text. -/
theorem c10_request_ecu_coercion (e : ECU) (sv : Option Service) (pl : Option Nat)
    (d : List Nat) :
    Request.init (.ofNat e.value) sv pl d = Request.init (.ofECU e) sv pl d ∧
    Request.init (.ofStr (natHex e.value)) sv pl d = Request.init (.ofECU e) sv pl d ∧
    Request.init (.ofStr "7e0") sv pl d = Request.init (.ofECU ECU.ECM) sv pl d ∧
    (Request.init (.ofNat e.value) sv pl d).map Request.render
      = (Request.init (.ofECU e) sv pl d).map Request.render ∧
    (Request.init (.ofStr (natHex e.value)) sv pl d).map Request.render
      = (Request.init (.ofECU e) sv pl d).map Request.render := by
  have hnat : parseECUArg (.ofNat e.value) = some e := by cases e <;> rfl
  have hstr : parseECUArg (.ofStr (natHex e.value)) = some e := by cases e <;> rfl
  have h1 : Request.init (.ofNat e.value) sv pl d = Request.init (.ofECU e) sv pl d := by
    unfold Request.init
    rw [hnat]
    rfl
  have h2 : Request.init (.ofStr (natHex e.value)) sv pl d
      = Request.init (.ofECU e) sv pl d := by
    unfold Request.init
    rw [hstr]
    rfl
  exact ⟨h1, h2, rfl, by rw [h1], by rw [h2]⟩
